import Mathlib

/-!
Verification of the image-analysis front end.

The definitions below are a shallow embedding of the two source files:
the response interpretation protocol and request building of
src/services/geminiService.ts, and the UI state transitions of
src/App.tsx. Host-platform functions the source calls (JSON.parse, the
FileReader data URL encoding, String.prototype.trim, String.split) are
modelled by their documented standard semantics.
-/

namespace Gemini

/-- JSON whitespace characters of the JSON grammar (RFC 8259). -/
def isWsJSON (c : Char) : Bool :=
  c = ' ' || c = '\t' || c = '\n' || c = '\r'

/-- Whitespace recognized by the host trim operation on strings; the model
covers the ASCII whitespace characters plus the no-break space and the
byte-order mark, the relevant subset for the replies the protocol sees. -/
def isWsJS (c : Char) : Bool :=
  c = ' ' || c = '\t' || c = '\n' || c = '\r' || c = '\x0b' || c = '\x0c' ||
  c = ' ' || c = '﻿'

/-- Leading-whitespace removal, one half of the host trim. -/
def trimLeftCs (cs : List Char) : List Char := cs.dropWhile isWsJS

/-- Trailing-whitespace removal, the other half of the host trim. -/
def trimRightCs (cs : List Char) : List Char := (cs.reverse.dropWhile isWsJS).reverse

/-- Model of the trim call applied to the raw reply (geminiService.ts
lines 104 and 152). -/
def jsTrim (s : String) : String := ⟨trimLeftCs (trimRightCs s.data)⟩

/-- Leading-fence removal of geminiService.ts lines 105 and 153: the
anchored replace of the literal three-backtick json marker with an
optional following newline; being greedy, the newline is consumed when
present. Only this exact tagged marker is removed. -/
def stripLeadingFence (cs : List Char) : List Char :=
  match cs with
  | '\x60' :: '\x60' :: '\x60' :: 'j' :: 's' :: 'o' :: 'n' :: '\n' :: rest => rest
  | '\x60' :: '\x60' :: '\x60' :: 'j' :: 's' :: 'o' :: 'n' :: rest => rest
  | _ => cs

/-- Trailing-fence removal of geminiService.ts lines 105 and 153: the
anchored replace of a final three-backtick marker with an optional
preceding newline, read off the reversed character list. -/
def stripTrailingFence (cs : List Char) : List Char :=
  match cs.reverse with
  | '\x60' :: '\x60' :: '\x60' :: '\n' :: rrest => rrest.reverse
  | '\x60' :: '\x60' :: '\x60' :: rrest => rrest.reverse
  | _ => cs

/-- The fence cleanup applied to the trimmed reply: the leading replace
first, then the trailing replace, exactly as chained in the source. -/
def cleanFence (s : String) : String := ⟨stripTrailingFence (stripLeadingFence s.data)⟩

/-- JSON values as produced by the host JSON.parse. A number keeps its
source token, which determines its numeric value; no claim depends on the
numeric interpretation of a token. -/
inductive Json where
  | null : Json
  | bool (b : Bool) : Json
  | num (tok : String) : Json
  | str (s : String) : Json
  | arr (elems : List Json) : Json
  | obj (fields : List (String × Json)) : Json

/-- Value of a hexadecimal digit, for JSON unicode escapes. -/
def hexVal (c : Char) : Option Nat :=
  if '0' ≤ c ∧ c ≤ '9' then some (c.toNat - 48)
  else if 'a' ≤ c ∧ c ≤ 'f' then some (c.toNat - 87)
  else if 'A' ≤ c ∧ c ≤ 'F' then some (c.toNat - 55)
  else none

/-- A UTF-16 code unit from a JSON unicode escape as a character. Host
strings keep lone surrogates, which Lean characters (Unicode scalar
values) cannot represent; a lone surrogate maps to the replacement
character. Surrogate pairs are combined by the escape decoder. -/
def charOfCodeUnit (n : Nat) : Char :=
  if n < 55296 then Char.ofNat n
  else if 57344 ≤ n ∧ n < 1114112 then Char.ofNat n
  else Char.ofNat 65533

/-- Decode the escape that follows a backslash inside a JSON string
literal: the decoded character and the remaining input. Covers the
escapes JSON.parse accepts, combining surrogate pairs written as two
unicode escapes. -/
def decodeEscape (cs : List Char) : Option (Char × List Char) :=
  match cs with
  | [] => none
  | e :: rest =>
    if e = '"' then some ('"', rest)
    else if e = '\\' then some ('\\', rest)
    else if e = '/' then some ('/', rest)
    else if e = 'b' then some ('\x08', rest)
    else if e = 'f' then some ('\x0c', rest)
    else if e = 'n' then some ('\n', rest)
    else if e = 'r' then some ('\r', rest)
    else if e = 't' then some ('\t', rest)
    else if e = 'u' then
      match rest with
      | h1 :: h2 :: h3 :: h4 :: rest4 =>
        match hexVal h1, hexVal h2, hexVal h3, hexVal h4 with
        | some v1, some v2, some v3, some v4 =>
          let v := ((v1 * 16 + v2) * 16 + v3) * 16 + v4
          if 55296 ≤ v ∧ v < 56320 then
            match rest4 with
            | b1 :: b2 :: k1 :: k2 :: k3 :: k4 :: rest10 =>
              if b1 = '\\' ∧ b2 = 'u' then
                match hexVal k1, hexVal k2, hexVal k3, hexVal k4 with
                | some w1, some w2, some w3, some w4 =>
                  let w := ((w1 * 16 + w2) * 16 + w3) * 16 + w4
                  if 56320 ≤ w ∧ w < 57344 then
                    some (Char.ofNat (65536 + (v - 55296) * 1024 + (w - 56320)), rest10)
                  else some (charOfCodeUnit v, rest4)
                | _, _, _, _ => some (charOfCodeUnit v, rest4)
              else some (charOfCodeUnit v, rest4)
            | _ => some (charOfCodeUnit v, rest4)
          else some (charOfCodeUnit v, rest4)
        | _, _, _, _ => none
      | _ => none
    else none

/-- Parse the body of a JSON string literal after its opening quote, up
to and including the closing quote: the decoded characters and the
remaining input. Fuel bounds the recursion; callers pass the input
length plus one, which suffices because every step consumes input. -/
def parseStringBody (fuel : Nat) (cs : List Char) : Option (List Char × List Char) :=
  match fuel with
  | 0 => none
  | fuel + 1 =>
    match cs with
    | [] => none
    | c :: rest =>
      if c = '"' then some ([], rest)
      else if c = '\\' then
        match decodeEscape rest with
        | some (ch, rest2) =>
          match parseStringBody fuel rest2 with
          | some (tail, rem) => some (ch :: tail, rem)
          | none => none
        | none => none
      else if c.toNat < 32 then none
      else
        match parseStringBody fuel rest with
        | some (tail, rem) => some (c :: tail, rem)
        | none => none

/-- Optional fraction part of a JSON number token. -/
def parseFracPart (cs : List Char) : Option (List Char × List Char) :=
  match cs with
  | c :: rest =>
    if c = '.' then
      let ds := rest.takeWhile Char.isDigit
      if ds.isEmpty then none
      else some (c :: ds, rest.dropWhile Char.isDigit)
    else some ([], cs)
  | [] => some ([], [])

/-- Optional exponent part of a JSON number token. -/
def parseExpPart (cs : List Char) : Option (List Char × List Char) :=
  match cs with
  | c :: rest =>
    if c = 'e' ∨ c = 'E' then
      let (sgn, rest2) :=
        match rest with
        | d :: r2 => if d = '+' ∨ d = '-' then ([d], r2) else (([] : List Char), rest)
        | [] => (([] : List Char), rest)
      let ds := rest2.takeWhile Char.isDigit
      if ds.isEmpty then none
      else some (c :: (sgn ++ ds), rest2.dropWhile Char.isDigit)
    else some ([], cs)
  | [] => some ([], [])

/-- JSON number token: optional minus, integer part with no leading
zeros, optional fraction, optional exponent. Returns the token
characters and the remaining input. -/
def parseNumberTok (cs : List Char) : Option (List Char × List Char) :=
  let (sgn, cs1) :=
    match cs with
    | c :: rest => if c = '-' then ([c], rest) else (([] : List Char), cs)
    | [] => (([] : List Char), [])
  match cs1 with
  | c :: rest =>
    if c = '0' then
      match parseFracPart rest with
      | some (f, cs2) =>
        match parseExpPart cs2 with
        | some (e, cs3) => some (sgn ++ [c] ++ f ++ e, cs3)
        | none => none
      | none => none
    else if c.isDigit then
      match parseFracPart (cs1.dropWhile Char.isDigit) with
      | some (f, cs2) =>
        match parseExpPart cs2 with
        | some (e, cs3) => some (sgn ++ cs1.takeWhile Char.isDigit ++ f ++ e, cs3)
        | none => none
      | none => none
    else none
  | [] => none

/-- Skip JSON whitespace. -/
def skipWs (cs : List Char) : List Char := cs.dropWhile isWsJSON

/-- Parse the comma-separated elements of a nonempty JSON array up to
the closing bracket, with the value parser supplied as a parameter. -/
def parseElemsWith (pv : List Char → Option (Json × List Char)) :
    Nat → List Char → Option (List Json × List Char)
  | 0, _ => none
  | fuel + 1, cs =>
    match pv cs with
    | some (j, rem) =>
      match skipWs rem with
      | c :: rem2 =>
        if c = ',' then
          match parseElemsWith pv fuel rem2 with
          | some (xs, rem3) => some (j :: xs, rem3)
          | none => none
        else if c = ']' then some ([j], rem2)
        else none
      | [] => none
    | none => none

/-- Parse the comma-separated members of a nonempty JSON object up to
the closing brace, with the value parser supplied as a parameter. -/
def parseFieldsWith (pv : List Char → Option (Json × List Char)) :
    Nat → List Char → Option (List (String × Json) × List Char)
  | 0, _ => none
  | fuel + 1, cs =>
    match skipWs cs with
    | c :: rest =>
      if c = '"' then
        match parseStringBody (rest.length + 1) rest with
        | some (key, rem) =>
          match skipWs rem with
          | d :: rem2 =>
            if d = ':' then
              match pv rem2 with
              | some (v, rem3) =>
                match skipWs rem3 with
                | e :: rem4 =>
                  if e = ',' then
                    match parseFieldsWith pv fuel rem4 with
                    | some (fs, rem5) => some ((⟨key⟩, v) :: fs, rem5)
                    | none => none
                  else if e = '\x7d' then some ([(⟨key⟩, v)], rem4)
                  else none
                | [] => none
              | none => none
            else none
          | [] => none
        | none => none
      else none
    | [] => none

/-- Recursive JSON value parser modelling the grammar the host
JSON.parse accepts. The fuel bounds the nesting depth; the entry point
supplies the input length plus one, which suffices because every
nesting level consumes input. -/
def parseVal : Nat → List Char → Option (Json × List Char)
  | 0, _ => none
  | fuel + 1, cs =>
    match skipWs cs with
    | [] => none
    | c :: rest =>
      if c = '"' then
        match parseStringBody (rest.length + 1) rest with
        | some (body, rem) => some (Json.str ⟨body⟩, rem)
        | none => none
      else if c = 't' then
        if ("rue".data).isPrefixOf rest then some (Json.bool true, rest.drop 3) else none
      else if c = 'f' then
        if ("alse".data).isPrefixOf rest then some (Json.bool false, rest.drop 4) else none
      else if c = 'n' then
        if ("ull".data).isPrefixOf rest then some (Json.null, rest.drop 3) else none
      else if c = '[' then
        match skipWs rest with
        | d :: rem2 =>
          if d = ']' then some (Json.arr [], rem2)
          else
            match parseElemsWith (fun l => parseVal fuel l) (rest.length + 1) rest with
            | some (xs, rem) => some (Json.arr xs, rem)
            | none => none
        | [] => none
      else if c = '\x7b' then
        match skipWs rest with
        | d :: rem2 =>
          if d = '\x7d' then some (Json.obj [], rem2)
          else
            match parseFieldsWith (fun l => parseVal fuel l) (rest.length + 1) rest with
            | some (fs, rem) => some (Json.obj fs, rem)
            | none => none
        | [] => none
      else
        match parseNumberTok (c :: rest) with
        | some (tok, rem) => some (Json.num ⟨tok⟩, rem)
        | none => none

/-- Model of the host JSON.parse: parse one value and require only
whitespace to remain. -/
def parse (s : String) : Option Json :=
  match parseVal (s.length + 1) s.data with
  | some (j, rem) => if skipWs rem = [] then some j else none
  | none => none

/-- Failure kinds of the response interpretation protocol: the
empty-or-absent rejection thrown at geminiService.ts line 102, and the
JSON parse failure raised by line 106. -/
inductive InterpError where
  | emptyResponse : InterpError
  | malformedResponse : InterpError
deriving DecidableEq

/-- The structured response interpretation protocol shared by
analyzeImage (geminiService.ts lines 100 to 106) and
getPromptSuggestions (lines 148 to 154), with the JSON parser passed as
a parameter: reject an absent or empty reply, trim, strip the fences,
then parse. The source checks the falsy rawText, which for the optional
string reply means absent or empty. -/
def interpretWith (p : String → Option Json) : Option String → Except InterpError Json
  | none => Except.error InterpError.emptyResponse
  | some t =>
    if t = "" then Except.error InterpError.emptyResponse
    else
      match p (cleanFence (jsTrim t)) with
      | some j => Except.ok j
      | none => Except.error InterpError.malformedResponse

/-- The interpretation protocol instantiated with the JSON parser, the
behaviour of the two structured calls on a received reply. -/
def interpret : Option String → Except InterpError Json := interpretWith parse

/-- The reply shape of the free-text extraction call. -/
structure TextExtractionResponse where
  text : String
deriving DecidableEq

/-- The reply handling of extractTextFromImage (geminiService.ts line
126): the raw reply is returned as the text field with an absent reply
mapped to the empty string by the nullish coalescing; no emptiness
check, no trim, no fence stripping, no parsing. -/
def extractTextInterp (raw : Option String) : TextExtractionResponse :=
  ⟨match raw with
   | some t => t
   | none => ""⟩

/-- The whole extractTextFromImage call (geminiService.ts lines 114 to
131) as a function of the service outcome: a service failure is caught
and replaced by the fixed message; a delivered reply is wrapped by
extractTextInterp and always succeeds. -/
def extractTextFromImage (svc : Except String (Option String)) :
    Except String TextExtractionResponse :=
  match svc with
  | Except.error _ => Except.error "Failed to extract text from the image."
  | Except.ok raw => Except.ok (extractTextInterp raw)

/-- The standard base64 alphabet used by the host data URL encoding. -/
def b64Alphabet : List Char :=
  "ABCDEFGHIJKLMNOPQRSTUVWXYZabcdefghijklmnopqrstuvwxyz0123456789+/".data

/-- Character of a sextet value in the base64 alphabet. -/
def sextetChar (n : Nat) : Char := b64Alphabet.getD n 'A'

/-- Sextet value of a base64 character, when it is one. -/
def sextetVal (c : Char) : Option Nat := b64Alphabet.findIdx? (fun d => d == c)

/-- Standard base64 encoding of a byte sequence, three bytes to four
characters with trailing padding, as the host readAsDataURL produces. -/
def encodeB64 : List Nat → List Char
  | [] => []
  | [a] => [sextetChar (a / 4), sextetChar (a % 4 * 16), '=', '=']
  | [a, b] => [sextetChar (a / 4), sextetChar (a % 4 * 16 + b / 16), sextetChar (b % 16 * 4), '=']
  | a :: b :: c :: rest =>
    sextetChar (a / 4) :: sextetChar (a % 4 * 16 + b / 16) ::
    sextetChar (b % 16 * 4 + c / 64) :: sextetChar (c % 64) :: encodeB64 rest

/-- Standard base64 decoding, four characters to three bytes with the
two padded final-group forms. -/
def decodeB64 : List Char → Option (List Nat)
  | [] => some []
  | c1 :: c2 :: c3 :: c4 :: rest =>
    if c3 = '=' then
      if c4 = '=' ∧ rest = [] then
        match sextetVal c1, sextetVal c2 with
        | some v1, some v2 => some [v1 * 4 + v2 / 16]
        | _, _ => none
      else none
    else if c4 = '=' then
      if rest = [] then
        match sextetVal c1, sextetVal c2, sextetVal c3 with
        | some v1, some v2, some v3 => some [v1 * 4 + v2 / 16, v2 % 16 * 16 + v3 / 4]
        | _, _, _ => none
      else none
    else
      match sextetVal c1, sextetVal c2, sextetVal c3, sextetVal c4, decodeB64 rest with
      | some v1, some v2, some v3, some v4, some bs =>
        some ((v1 * 4 + v2 / 16) :: (v2 % 16 * 16 + v3 / 4) :: (v3 % 4 * 64 + v4) :: bs)
      | _, _, _, _, _ => none
  | _ => none

/-- An image file: its bytes (each below 256) and its MIME type, the
two inputs fileToGenerativePart consumes. -/
structure FileModel where
  bytes : List Nat
  mimeType : String
deriving DecidableEq

/-- Outcome of the FileReader read: the load event with the data URL in
the result, or the error event leaving the result null. -/
inductive ReadOutcome where
  | loaded : ReadOutcome
  | errored : ReadOutcome
deriving DecidableEq

/-- The inline data request part: base64 payload text and MIME type. -/
structure InlinePart where
  data : String
  mimeType : String
deriving DecidableEq

/-- What the promise built by fileToGenerativePart can do. The executor
at geminiService.ts lines 30 to 38 calls resolve only when the read
result is a string and never calls reject, so the promise either
resolves or stays pending forever; no rejected alternative exists. -/
inductive PromiseOutcome (α : Type) where
  | resolved (a : α) : PromiseOutcome α
  | pending : PromiseOutcome α
deriving DecidableEq

/-- The data URL the host readAsDataURL delivers for a file: the fixed
header with the MIME type, then the comma, then the base64 payload. -/
def dataUrlOf (f : FileModel) : String :=
  "data:" ++ f.mimeType ++ ";base64," ++ ⟨encodeB64 f.bytes⟩

/-- The host split on the comma character, every occurrence. -/
def splitCommaCs : List Char → List (List Char)
  | [] => [[]]
  | c :: cs =>
    if c = ',' then [] :: splitCommaCs cs
    else
      match splitCommaCs cs with
      | g :: gs => (c :: g) :: gs
      | [] => [[c]]

/-- fileToGenerativePart (geminiService.ts lines 29 to 42): on a
successful read, the data URL is split on commas and the piece after
the first comma becomes the inline payload; on a read error the
onloadend handler sees a null result, the string guard fails, resolve
is never called, and the promise stays pending. -/
def fileToGenerativePart (f : FileModel) (r : ReadOutcome) : PromiseOutcome InlinePart :=
  match r with
  | ReadOutcome.loaded =>
    PromiseOutcome.resolved ⟨⟨(splitCommaCs (dataUrlOf f).data).getD 1 []⟩, f.mimeType⟩
  | ReadOutcome.errored => PromiseOutcome.pending

/-- One detected object of the analysis reply shape. -/
structure DetectedObject where
  name : String
  icon : String
deriving DecidableEq

/-- The analysis reply shape of src/services/geminiService.ts. -/
structure AnalysisResponse where
  title : String
  summary : String
  detected_objects : List DetectedObject
  color_palette : List String
deriving DecidableEq

/-- The three UI states of src/App.tsx. -/
inductive AppState where
  | idle : AppState
  | loading : AppState
  | interactive : AppState
deriving DecidableEq

/-- The mutable state App holds in its six useState cells. -/
structure AppModel where
  appState : AppState
  imageFile : Option FileModel
  prompt : String
  analysisResult : Option AnalysisResponse
  textResult : Option TextExtractionResponse
  error : Option String
deriving DecidableEq

/-- The initial state of App: idle, nothing selected, default prompt. -/
def initialModel : AppModel :=
  ⟨AppState.idle, none, "Analyze this image", none, none, none⟩

/-- handleImageChange (App.tsx lines 107 to 114): select the file,
clear results and error, reset the prompt, become interactive. -/
def handleImageChange (s : AppModel) (f : FileModel) : AppModel :=
  { s with imageFile := some f, analysisResult := none, textResult := none,
           error := none, prompt := "Analyze this image", appState := AppState.interactive }

/-- handleReset (App.tsx lines 116 to 122): clear the file, results and
error and go idle; the prompt is left as it is. -/
def handleReset (s : AppModel) : AppModel :=
  { s with imageFile := none, analysisResult := none, textResult := none,
           error := none, appState := AppState.idle }

/-- The synchronous head of handleAnalyze (App.tsx lines 125 to 129):
with no image it returns at once issuing no call (the Bool records
whether the outbound call was issued); otherwise it clears error and
results, sets the loading state and issues the join. -/
def handleAnalyzeStart (s : AppModel) : AppModel × Bool :=
  if s.imageFile = none then (s, false)
  else ({ s with error := none, analysisResult := none, textResult := none,
                 appState := AppState.loading }, true)

/-- The all-or-nothing join of the two outbound calls. When both
reject, the real join rejects with whichever settled first in time; the
model takes the analysis error, and no claim depends on that choice. -/
def joinAll {α β : Type} (ra : Except String α) (rb : Except String β) :
    Except String (α × β) :=
  match ra, rb with
  | Except.ok a, Except.ok b => Except.ok (a, b)
  | Except.error e, _ => Except.error e
  | _, Except.error e => Except.error e

/-- The or-default applied to the caught message (App.tsx line 138). -/
def jsOrDefault (m d : String) : String := if m = "" then d else m

/-- The resumption of handleAnalyze once the join settles (App.tsx
lines 130 to 141): on success both results are applied; on failure the
message is surfaced; the finally clause then sets the interactive state
unconditionally. -/
def handleAnalyzeSettle (s : AppModel)
    (r : Except String (AnalysisResponse × TextExtractionResponse)) : AppModel :=
  let s2 :=
    match r with
    | Except.ok (a, t) => { s with analysisResult := some a, textResult := some t }
    | Except.error m => { s with error := some (jsOrDefault m "An unknown error occurred.") }
  { s2 with appState := AppState.interactive }

/-- One whole run of handleAnalyze (App.tsx lines 124 to 142) as a
function of the current state and the outcomes of the two joined
calls. -/
def handleAnalyze (s : AppModel) (ra : Except String AnalysisResponse)
    (rt : Except String TextExtractionResponse) : AppModel :=
  if s.imageFile = none then s
  else handleAnalyzeSettle (handleAnalyzeStart s).1 (joinAll ra rt)

/-- The events that drive the App state: a file selection, a reset, the
synchronous start of an analyze run, and the settling of its join. -/
inductive AppEvent where
  | imageSelected (f : FileModel) : AppEvent
  | reset : AppEvent
  | analyzeStart : AppEvent
  | analyzeSettle (r : Except String (AnalysisResponse × TextExtractionResponse)) : AppEvent

/-- The transition each event makes on the App state. -/
def appStep (s : AppModel) (e : AppEvent) : AppModel :=
  match e with
  | AppEvent.imageSelected f => handleImageChange s f
  | AppEvent.reset => handleReset s
  | AppEvent.analyzeStart => (handleAnalyzeStart s).1
  | AppEvent.analyzeSettle r => handleAnalyzeSettle s r

/-- The state after a sequence of events from the initial state. -/
def runApp (es : List AppEvent) : AppModel := es.foldl appStep initialModel

/-! Helper lemmas about trimming, fence stripping and parsing. -/

/-- Trimming from the right leaves a string that ends in the closing
fence unchanged, because its last character is a backtick. -/
theorem trimRight_append_close (A : List Char) :
    trimRightCs (A ++ "\n```".data) = A ++ "\n```".data := by
  unfold trimRightCs
  rw [List.reverse_append]
  have h : List.dropWhile isWsJS ("\n```".data.reverse ++ A.reverse)
      = "\n```".data.reverse ++ A.reverse := rfl
  rw [h, ← List.reverse_append, List.reverse_reverse]

/-- Trimming from the left leaves a backtick-headed list unchanged. -/
theorem trimLeft_bq (rest : List Char) :
    trimLeftCs ('\x60' :: rest) = '\x60' :: rest := rfl

/-- The trailing-fence replace removes exactly the final newline and
three backticks. -/
theorem stripTrailing_close (xs : List Char) :
    stripTrailingFence (xs ++ "\n```".data) = xs := by
  unfold stripTrailingFence
  rw [List.reverse_append]
  exact List.reverse_reverse xs

/-- Characters of a reply wrapped in the tagged fence. -/
theorem data_json_wrap (s : String) :
    ("```json\n" ++ s ++ "\n```").data = ("```json\n".data ++ s.data) ++ "\n```".data := by
  rw [String.data_append, String.data_append]

/-- Characters of a reply wrapped in the untagged fence. -/
theorem data_plain_wrap (s : String) :
    ("```\n" ++ s ++ "\n```").data = ("```\n".data ++ s.data) ++ "\n```".data := by
  rw [String.data_append, String.data_append]

/-- A reply wrapped in the tagged fence is already trimmed: both ends
are backticks. -/
theorem jsTrim_json_wrap (s : String) :
    jsTrim ("```json\n" ++ s ++ "\n```") = "```json\n" ++ s ++ "\n```" := by
  refine String.ext ?_
  show trimLeftCs (trimRightCs (("```json\n" ++ s ++ "\n```").data))
      = ("```json\n" ++ s ++ "\n```").data
  rw [data_json_wrap, trimRight_append_close]
  exact trimLeft_bq _

/-- A reply wrapped in the untagged fence is already trimmed. -/
theorem jsTrim_plain_wrap (s : String) :
    jsTrim ("```\n" ++ s ++ "\n```") = "```\n" ++ s ++ "\n```" := by
  refine String.ext ?_
  show trimLeftCs (trimRightCs (("```\n" ++ s ++ "\n```").data))
      = ("```\n" ++ s ++ "\n```").data
  rw [data_plain_wrap, trimRight_append_close]
  exact trimLeft_bq _

/-- The fence cleanup recovers the payload of a reply wrapped in the
tagged fence exactly. -/
theorem cleanFence_json_wrap (s : String) :
    cleanFence ("```json\n" ++ s ++ "\n```") = s := by
  refine String.ext ?_
  show stripTrailingFence (stripLeadingFence (("```json\n" ++ s ++ "\n```").data)) = s.data
  rw [data_json_wrap]
  have h1 : stripLeadingFence (("```json\n".data ++ s.data) ++ "\n```".data)
      = s.data ++ "\n```".data := rfl
  rw [h1, stripTrailing_close]

/-- On a reply wrapped in the untagged fence the leading marker stays:
only the trailing fence is removed. -/
theorem cleanFence_plain_wrap (s : String) :
    cleanFence ("```\n" ++ s ++ "\n```") = ⟨"```\n".data ++ s.data⟩ := by
  refine String.ext ?_
  show stripTrailingFence (stripLeadingFence (("```\n" ++ s ++ "\n```").data))
      = "```\n".data ++ s.data
  rw [data_plain_wrap]
  have h1 : stripLeadingFence (("```\n".data ++ s.data) ++ "\n```".data)
      = ("```\n".data ++ s.data) ++ "\n```".data := rfl
  rw [h1, stripTrailing_close]

/-- No JSON value starts with a backtick, whatever the fuel. -/
theorem parseVal_bq : ∀ (fuel : Nat) (rest : List Char),
    parseVal fuel ('\x60' :: rest) = none
  | 0, _ => rfl
  | _ + 1, _ => rfl

/-- The parser rejects any input that starts with a backtick. -/
theorem parse_bq (l : List Char) : parse ⟨'\x60' :: l⟩ = none := by
  show (match parseVal ((⟨'\x60' :: l⟩ : String).length + 1) ('\x60' :: l) with
    | some (j, rem) => if skipWs rem = [] then some j else none
    | none => none) = none
  rw [parseVal_bq]

/-- A reply wrapped in the tagged fence is not the empty string. -/
theorem json_wrap_ne_empty (s : String) : ("```json\n" ++ s ++ "\n```") ≠ "" := by
  intro h
  have hd := congrArg String.data h
  rw [data_json_wrap] at hd
  exact nomatch hd

/-- A reply wrapped in the untagged fence is not the empty string. -/
theorem plain_wrap_ne_empty (s : String) : ("```\n" ++ s ++ "\n```") ≠ "" := by
  intro h
  have hd := congrArg String.data h
  rw [data_plain_wrap] at hd
  exact nomatch hd

/-- Dropping while a predicate holds skips a block that satisfies it. -/
theorem dropWhile_allP_append (p : Char → Bool) :
    ∀ (a b : List Char), (∀ c ∈ a, p c = true) →
      List.dropWhile p (a ++ b) = List.dropWhile p b := by
  intro a
  induction a with
  | nil => intro b _; rfl
  | cons c t ih =>
    intro b h
    rw [List.cons_append, List.dropWhile_cons, if_pos (h c (by simp))]
    exact ih b (fun d hd => h d (by simp [hd]))

/-- A list fixed by dropWhile has a head that fails the predicate. -/
theorem dropWhile_cons_fix (p : Char → Bool) (c : Char) (t : List Char)
    (h : List.dropWhile p (c :: t) = c :: t) : p c = false := by
  by_cases hp : p c = true
  · rw [List.dropWhile_cons, if_pos hp] at h
    have hs := (List.dropWhile_suffix (l := t) p).length_le
    rw [h] at hs
    simp at hs
  · simpa using hp

/-- A nonempty fixed point of dropWhile stays fixed when extended. -/
theorem dropWhile_fix_append (p : Char → Bool) (l m : List Char)
    (hne : l ≠ []) (hfix : List.dropWhile p l = l) :
    List.dropWhile p (l ++ m) = l ++ m := by
  cases l with
  | nil => exact absurd rfl hne
  | cons c t =>
    have hc := dropWhile_cons_fix p c t hfix
    rw [List.cons_append, List.dropWhile_cons, if_neg (by simp [hc])]

/-- A trim-stable string is fixed by each half of the trim: its leading
and trailing characters are not whitespace. -/
theorem trim_extract (s : String) (htrim : jsTrim s = s) :
    List.dropWhile isWsJS s.data = s.data ∧
    List.dropWhile isWsJS s.data.reverse = s.data.reverse := by
  have hd : trimLeftCs (trimRightCs s.data) = s.data := congrArg String.data htrim
  have hsuf : trimLeftCs (trimRightCs s.data) <:+ trimRightCs s.data :=
    List.dropWhile_suffix _
  have len2 : (trimRightCs s.data).length ≤ s.data.length := by
    unfold trimRightCs
    rw [List.length_reverse]
    calc (List.dropWhile isWsJS s.data.reverse).length
        ≤ s.data.reverse.length := (List.dropWhile_suffix _).length_le
      _ = s.data.length := List.length_reverse s.data
  have len1 : s.data.length ≤ (trimRightCs s.data).length := by
    conv_lhs => rw [← hd]
    exact hsuf.length_le
  have hR : trimRightCs s.data = s.data := by
    have := hsuf.eq_of_length (by rw [hd]; omega)
    rw [hd] at this
    exact this.symm
  constructor
  · rw [hR] at hd
    exact hd
  · have : (List.dropWhile isWsJS s.data.reverse).reverse = s.data := hR
    rw [← List.reverse_inj, List.reverse_reverse] at this
    exact this

/-- Whitespace padding around a nonempty trim-stable string is removed
by the trim, which is exactly what the protocol does to a reply before
any fence stripping. -/
theorem jsTrim_pad (w1 w2 X : String)
    (hw1 : ∀ c ∈ w1.data, isWsJS c = true) (hw2 : ∀ c ∈ w2.data, isWsJS c = true)
    (hX : jsTrim X = X) (hne : X.data ≠ []) :
    jsTrim (w1 ++ X ++ w2) = X := by
  obtain ⟨hL, hRrev⟩ := trim_extract X hX
  refine String.ext ?_
  show trimLeftCs (trimRightCs ((w1 ++ X ++ w2).data)) = X.data
  have hd : (w1 ++ X ++ w2).data = (w1.data ++ X.data) ++ w2.data := by
    rw [String.data_append, String.data_append]
  rw [hd]
  have hrev : X.data.reverse ≠ [] := by
    intro h
    rw [List.reverse_eq_nil_iff] at h
    exact hne h
  have hTR : trimRightCs ((w1.data ++ X.data) ++ w2.data) = w1.data ++ X.data := by
    unfold trimRightCs
    rw [List.reverse_append, List.reverse_append]
    rw [dropWhile_allP_append _ _ _ (fun c hc => hw2 c (List.mem_reverse.1 hc))]
    rw [dropWhile_fix_append _ _ _ hrev hRrev]
    rw [← List.reverse_append, List.reverse_reverse]
  rw [hTR]
  show List.dropWhile isWsJS (w1.data ++ X.data) = X.data
  rw [dropWhile_allP_append _ _ _ hw1]
  exact hL

/-- Both leading-fence patterns start with a backtick, so a list whose
head is any other character is left unchanged. -/
theorem stripLeadingFence_head_ne (c : Char) (t : List Char) (h : c ≠ '\x60') :
    stripLeadingFence (c :: t) = c :: t := by
  unfold stripLeadingFence
  split
  · rename_i heq
    rw [List.cons.injEq] at heq
    exact absurd heq.1 h
  · rename_i heq
    rw [List.cons.injEq] at heq
    exact absurd heq.1 h
  · rfl

/-- A reply the parser accepts is nonempty and does not start with a
backtick, since no JSON value starts with one. -/
theorem parse_head (s : String) (j : Json) (hj : parse s = some j) :
    ∃ c t, s.data = c :: t ∧ c ≠ '\x60' := by
  cases hd : s.data with
  | nil =>
    have hs : s = "" := String.ext hd
    rw [hs] at hj
    exact Option.noConfusion hj
  | cons c t =>
    by_cases hc : c = '\x60'
    · subst hc
      have hs : s = ⟨'\x60' :: t⟩ := String.ext hd
      rw [hs, parse_bq] at hj
      exact Option.noConfusion hj
    · exact ⟨c, t, rfl, hc⟩

/-- Trimming from the right leaves any extension of a right-trimmed
nonempty block unchanged. -/
theorem trimRight_append_right (A x : List Char) (hne : x ≠ [])
    (hfix : List.dropWhile isWsJS x.reverse = x.reverse) :
    trimRightCs (A ++ x) = A ++ x := by
  unfold trimRightCs
  rw [List.reverse_append]
  rw [dropWhile_fix_append _ _ _ (by simpa [List.reverse_eq_nil_iff] using hne) hfix]
  rw [← List.reverse_append, List.reverse_reverse]

/-- The leading-fence replace removes exactly the tagged marker and its
newline from the front, whatever follows. -/
theorem stripLeadingFence_fenceNl (y : List Char) :
    stripLeadingFence ("```json\n".data ++ y) = y := rfl

/-- A padded string around a nonempty core is not the empty string. -/
theorem pad_ne_empty (w1 w2 X : String) (hne : X.data ≠ []) : (w1 ++ X ++ w2) ≠ "" := by
  intro h
  have hd := congrArg String.data h
  rw [String.data_append, String.data_append] at hd
  rcases List.append_eq_nil.1 hd with ⟨h1, _⟩
  rcases List.append_eq_nil.1 h1 with ⟨_, h2⟩
  exact hne h2

/-! Helper lemmas about base64 and the data URL split. -/

/-- Induction following the three-byte chunking of the encoder. -/
theorem byteChunks_ind (P : List Nat → Prop) (h0 : P []) (h1 : ∀ a, P [a])
    (h2 : ∀ a b, P [a, b]) (h3 : ∀ a b c rest, P rest → P (a :: b :: c :: rest)) :
    ∀ l, P l
  | [] => h0
  | [a] => h1 a
  | [a, b] => h2 a b
  | a :: b :: c :: rest => h3 a b c rest (byteChunks_ind P h0 h1 h2 h3 rest)

/-- Looking up the character of a sextet recovers the sextet. -/
theorem sextetVal_sextetChar : ∀ n, n < 64 → sextetVal (sextetChar n) = some n := by decide

/-- No sextet character is the padding character. -/
theorem sextetChar_ne_pad : ∀ n, n < 64 → sextetChar n ≠ '=' := by decide

/-- Decoding inverts encoding on byte sequences. -/
theorem decodeB64_encodeB64 :
    ∀ l : List Nat, (∀ b ∈ l, b < 256) → decodeB64 (encodeB64 l) = some l := by
  refine byteChunks_ind _ ?_ ?_ ?_ ?_
  · intro _
    rfl
  · intro a h
    have ha : a < 256 := h a (by simp)
    have h1 := sextetVal_sextetChar (a / 4) (by omega)
    have h2 := sextetVal_sextetChar (a % 4 * 16) (by omega)
    simp [encodeB64, decodeB64, h1, h2]
    omega
  · intro a b h
    have ha : a < 256 := h a (by simp)
    have hb : b < 256 := h b (by simp)
    have e3 : sextetChar (b % 16 * 4) ≠ '=' := sextetChar_ne_pad _ (by omega)
    have h1 := sextetVal_sextetChar (a / 4) (by omega)
    have h2 := sextetVal_sextetChar (a % 4 * 16 + b / 16) (by omega)
    have h3 := sextetVal_sextetChar (b % 16 * 4) (by omega)
    simp [encodeB64, decodeB64, if_neg e3, h1, h2, h3]
    omega
  · intro a b c rest ih h
    have ha : a < 256 := h a (by simp)
    have hb : b < 256 := h b (by simp)
    have hc : c < 256 := h c (by simp)
    have hrest : ∀ x ∈ rest, x < 256 := fun x hx => h x (by simp [hx])
    have e3 : sextetChar (b % 16 * 4 + c / 64) ≠ '=' := sextetChar_ne_pad _ (by omega)
    have e4 : sextetChar (c % 64) ≠ '=' := sextetChar_ne_pad _ (by omega)
    have h1 := sextetVal_sextetChar (a / 4) (by omega)
    have h2 := sextetVal_sextetChar (a % 4 * 16 + b / 16) (by omega)
    have h3 := sextetVal_sextetChar (b % 16 * 4 + c / 64) (by omega)
    have h4 := sextetVal_sextetChar (c % 64) (by omega)
    simp [encodeB64, decodeB64, if_neg e3, if_neg e4, h1, h2, h3, h4, ih hrest]
    omega

/-- No sextet character is a comma, whatever the index. -/
theorem sextetChar_ne_comma : ∀ n : Nat, sextetChar n ≠ ',' := by
  intro n
  rcases Nat.lt_or_ge n 64 with h | h
  · revert h
    revert n
    decide
  · unfold sextetChar
    rw [List.getD_eq_default]
    · decide
    · calc b64Alphabet.length = 64 := by decide
        _ ≤ n := h

/-- The base64 payload contains no comma. -/
theorem encodeB64_ne_comma : ∀ l : List Nat, ∀ c ∈ encodeB64 l, c ≠ ',' := by
  refine byteChunks_ind _ ?_ ?_ ?_ ?_
  · intro c hc
    simp [encodeB64] at hc
  · intro a c hc
    simp only [encodeB64, List.mem_cons, List.not_mem_nil, or_false] at hc
    rcases hc with rfl | rfl | rfl | rfl
    · exact sextetChar_ne_comma _
    · exact sextetChar_ne_comma _
    · decide
    · decide
  · intro a b c hc
    simp only [encodeB64, List.mem_cons, List.not_mem_nil, or_false] at hc
    rcases hc with rfl | rfl | rfl | rfl
    · exact sextetChar_ne_comma _
    · exact sextetChar_ne_comma _
    · exact sextetChar_ne_comma _
    · decide
  · intro a b c rest ih d hd
    simp only [encodeB64, List.mem_cons] at hd
    rcases hd with rfl | rfl | rfl | rfl | hmem
    · exact sextetChar_ne_comma _
    · exact sextetChar_ne_comma _
    · exact sextetChar_ne_comma _
    · exact sextetChar_ne_comma _
    · exact ih d hmem

/-- Splitting a comma-free list on commas yields the list itself. -/
theorem splitCommaCs_no_comma : ∀ cs : List Char, (∀ c ∈ cs, c ≠ ',') →
    splitCommaCs cs = [cs] := by
  intro cs
  induction cs with
  | nil => intro _; rfl
  | cons c cs ih =>
    intro h
    have hc : c ≠ ',' := h c (by simp)
    simp only [splitCommaCs, if_neg hc, ih (fun d hd => h d (by simp [hd]))]

/-- Splitting around the first comma after a comma-free head. -/
theorem splitCommaCs_append (xs ys : List Char) :
    (∀ c ∈ xs, c ≠ ',') → splitCommaCs (xs ++ ',' :: ys) = xs :: splitCommaCs ys := by
  induction xs with
  | nil =>
    intro _
    show splitCommaCs (',' :: ys) = [] :: splitCommaCs ys
    simp [splitCommaCs]
  | cons c xs ih =>
    intro h
    have hc : c ≠ ',' := h c (by simp)
    have ih2 := ih (fun d hd => h d (by simp [hd]))
    show splitCommaCs (c :: (xs ++ ',' :: ys)) = (c :: xs) :: splitCommaCs ys
    simp only [splitCommaCs, if_neg hc, ih2]

/-- The characters of the data URL split into the comma-free header,
the comma and the base64 payload. -/
theorem dataUrl_data (f : FileModel) :
    (dataUrlOf f).data =
      ("data:".data ++ f.mimeType.data ++ ";base64".data) ++ ',' :: encodeB64 f.bytes := by
  show ("data:" ++ f.mimeType ++ ";base64," ++ (⟨encodeB64 f.bytes⟩ : String)).data = _
  rw [String.data_append, String.data_append, String.data_append]
  simp [List.append_assoc]

/-- The data URL header holds no comma when the MIME type holds none. -/
theorem header_ne_comma (mime : String) (hm : ∀ c ∈ mime.data, c ≠ ',') :
    ∀ c ∈ ("data:".data ++ mime.data ++ ";base64".data), c ≠ ',' := by
  have hscheme : ∀ c ∈ "data:".data, c ≠ ',' := by decide
  have hsuffix : ∀ c ∈ ";base64".data, c ≠ ',' := by decide
  intro c hc
  rcases List.mem_append.1 hc with h1 | h2
  · rcases List.mem_append.1 h1 with h3 | h4
    · exact hscheme c h3
    · exact hm c h4
  · exact hsuffix c h2

/-! Helper lemmas for the App state machine. -/

/-- Every single event preserves the loading-implies-image invariant. -/
theorem appStep_keeps_loading_inv (s : AppModel) (e : AppEvent)
    (h : s.appState = AppState.loading → s.imageFile ≠ none) :
    (appStep s e).appState = AppState.loading → (appStep s e).imageFile ≠ none := by
  cases e with
  | imageSelected f => intro _; simp [appStep, handleImageChange]
  | reset => intro hl; simp [appStep, handleReset] at hl
  | analyzeStart =>
    by_cases hi : s.imageFile = none
    · simp only [appStep, handleAnalyzeStart, if_pos hi]
      exact h
    · intro _
      simp [appStep, handleAnalyzeStart, if_neg hi]
      exact hi
  | analyzeSettle r => intro hl; simp [appStep, handleAnalyzeSettle] at hl

/-- Event sequences preserve the loading-implies-image invariant. -/
theorem foldl_keeps_loading_inv : ∀ (es : List AppEvent) (s : AppModel),
    (s.appState = AppState.loading → s.imageFile ≠ none) →
    ((es.foldl appStep s).appState = AppState.loading →
      (es.foldl appStep s).imageFile ≠ none) := by
  intro es
  induction es with
  | nil => intro s h; exact h
  | cons e es ih =>
    intro s h
    rw [List.foldl_cons]
    exact ih _ (appStep_keeps_loading_inv s e h)

/-! The claims. -/

/-- Claim C1, corrected. The counterexample below shows the claim as
stated is false: the source strips only the exact json-tagged leading
marker, so a leading fence of three backticks with no language tag (or
any other tag) is not removed. Amended claim, keeping the rest of the
original: for every payload that is well-formed JSON, the Interpreter
returns exactly the parse of the payload on the bare reply, on the
reply wrapped in the tagged leading fence only, in the trailing fence
only, or in both, and on each of those four forms surrounded by any
whitespace, which the trim step removes; the stripping is lossless and
idempotent there; and the same payload wrapped in an untagged
three-backtick fence is not unwrapped and fails with
MalformedResponseError. The payload is taken trim-stable, since the
whitespace quantifiers carry any surrounding whitespace of the reply;
the leading fence never collides with the payload because no JSON value
starts with a backtick, a fact derived from the parse hypothesis; the
one remaining side hypothesis, that the trailing-fence replace leaves
the payload itself unchanged, excludes no well-formed payload, since
JSON text always ends in a quote, bracket, brace, digit or letter,
never in a backtick. -/
theorem C1_fence_stripping_amended (s : String) (j : Json)
    (hj : parse s = some j) (htrim : jsTrim s = s)
    (hT : stripTrailingFence s.data = s.data) :
    interpret (some s) = Except.ok j ∧
    interpret (some ("```json\n" ++ s ++ "\n```")) = Except.ok j ∧
    interpret (some ("```json\n" ++ s)) = Except.ok j ∧
    interpret (some (s ++ "\n```")) = Except.ok j ∧
    (∀ w1 w2 : String, (∀ c ∈ w1.data, isWsJS c = true) → (∀ c ∈ w2.data, isWsJS c = true) →
      interpret (some (w1 ++ s ++ w2)) = Except.ok j) ∧
    (∀ w1 w2 : String, (∀ c ∈ w1.data, isWsJS c = true) → (∀ c ∈ w2.data, isWsJS c = true) →
      interpret (some (w1 ++ ("```json\n" ++ s ++ "\n```") ++ w2)) = Except.ok j) ∧
    (∀ w1 w2 : String, (∀ c ∈ w1.data, isWsJS c = true) → (∀ c ∈ w2.data, isWsJS c = true) →
      interpret (some (w1 ++ ("```json\n" ++ s) ++ w2)) = Except.ok j) ∧
    (∀ w1 w2 : String, (∀ c ∈ w1.data, isWsJS c = true) → (∀ c ∈ w2.data, isWsJS c = true) →
      interpret (some (w1 ++ (s ++ "\n```") ++ w2)) = Except.ok j) ∧
    cleanFence (jsTrim ("```json\n" ++ s ++ "\n```")) = s ∧
    cleanFence (cleanFence (jsTrim ("```json\n" ++ s ++ "\n```"))) =
      cleanFence (jsTrim ("```json\n" ++ s ++ "\n```")) ∧
    interpret (some ("```\n" ++ s ++ "\n```")) = Except.error InterpError.malformedResponse := by
  obtain ⟨c, t, hdata, hcbq⟩ := parse_head s j hj
  obtain ⟨hLfix, hRfix⟩ := trim_extract s htrim
  have hsdne : s.data ≠ [] := by rw [hdata]; exact fun h => nomatch h
  have hsne : s ≠ "" := fun h => hsdne (congrArg String.data h)
  have hcw : isWsJS c = false := dropWhile_cons_fix _ c t (by rw [← hdata]; exact hLfix)
  have hLead : stripLeadingFence s.data = s.data := by
    rw [hdata]
    exact stripLeadingFence_head_ne c t hcbq
  have hCleanS : cleanFence s = s := by
    refine String.ext ?_
    show stripTrailingFence (stripLeadingFence s.data) = s.data
    rw [hLead, hT]
  have hXfull : jsTrim ("```json\n" ++ s ++ "\n```") = "```json\n" ++ s ++ "\n```" :=
    jsTrim_json_wrap s
  have hXfullne : ("```json\n" ++ s ++ "\n```").data ≠ [] := by
    rw [data_json_wrap]
    intro hh
    rcases List.append_eq_nil.1 hh with ⟨h1, _⟩
    rcases List.append_eq_nil.1 h1 with ⟨h2, _⟩
    exact nomatch h2
  have hCleanFull : cleanFence ("```json\n" ++ s ++ "\n```") = s := cleanFence_json_wrap s
  have hXlead : jsTrim ("```json\n" ++ s) = "```json\n" ++ s := by
    refine String.ext ?_
    show trimLeftCs (trimRightCs (("```json\n" ++ s).data)) = ("```json\n" ++ s).data
    rw [String.data_append, trimRight_append_right _ _ hsdne hRfix]
    exact trimLeft_bq _
  have hXleadne : ("```json\n" ++ s).data ≠ [] := by
    rw [String.data_append]
    intro hh
    rcases List.append_eq_nil.1 hh with ⟨h1, _⟩
    exact nomatch h1
  have hCleanLead : cleanFence ("```json\n" ++ s) = s := by
    refine String.ext ?_
    show stripTrailingFence (stripLeadingFence (("```json\n" ++ s).data)) = s.data
    rw [String.data_append, stripLeadingFence_fenceNl, hT]
  have hXtrail : jsTrim (s ++ "\n```") = s ++ "\n```" := by
    refine String.ext ?_
    show trimLeftCs (trimRightCs ((s ++ "\n```").data)) = (s ++ "\n```").data
    rw [String.data_append, trimRight_append_close]
    show List.dropWhile isWsJS (s.data ++ "\n```".data) = s.data ++ "\n```".data
    rw [hdata, List.cons_append, List.dropWhile_cons, if_neg (by simp [hcw])]
  have hXtrailne : (s ++ "\n```").data ≠ [] := by
    rw [String.data_append]
    intro hh
    rcases List.append_eq_nil.1 hh with ⟨_, h2⟩
    exact nomatch h2
  have hCleanTrail : cleanFence (s ++ "\n```") = s := by
    refine String.ext ?_
    show stripTrailingFence (stripLeadingFence ((s ++ "\n```").data)) = s.data
    rw [String.data_append]
    have hL2 : stripLeadingFence (s.data ++ "\n```".data) = s.data ++ "\n```".data := by
      rw [hdata, List.cons_append]
      exact stripLeadingFence_head_ne c _ hcbq
    rw [hL2, stripTrailing_close]
  refine ⟨?_, ?_, ?_, ?_, ?_, ?_, ?_, ?_, ?_, ?_, ?_⟩
  · show interpretWith parse (some s) = Except.ok j
    simp only [interpretWith]
    rw [if_neg hsne, htrim, hCleanS, hj]
  · show interpretWith parse (some ("```json\n" ++ s ++ "\n```")) = Except.ok j
    simp only [interpretWith]
    rw [if_neg (json_wrap_ne_empty s), hXfull, hCleanFull, hj]
  · show interpretWith parse (some ("```json\n" ++ s)) = Except.ok j
    simp only [interpretWith]
    rw [if_neg (fun h => hXleadne (congrArg String.data h)), hXlead, hCleanLead, hj]
  · show interpretWith parse (some (s ++ "\n```")) = Except.ok j
    simp only [interpretWith]
    rw [if_neg (fun h => hXtrailne (congrArg String.data h)), hXtrail, hCleanTrail, hj]
  · intro w1 w2 hw1 hw2
    show interpretWith parse (some (w1 ++ s ++ w2)) = Except.ok j
    simp only [interpretWith]
    rw [if_neg (pad_ne_empty _ _ _ hsdne), jsTrim_pad _ _ _ hw1 hw2 htrim hsdne,
        hCleanS, hj]
  · intro w1 w2 hw1 hw2
    show interpretWith parse (some (w1 ++ ("```json\n" ++ s ++ "\n```") ++ w2)) = Except.ok j
    simp only [interpretWith]
    rw [if_neg (pad_ne_empty _ _ _ hXfullne), jsTrim_pad _ _ _ hw1 hw2 hXfull hXfullne,
        hCleanFull, hj]
  · intro w1 w2 hw1 hw2
    show interpretWith parse (some (w1 ++ ("```json\n" ++ s) ++ w2)) = Except.ok j
    simp only [interpretWith]
    rw [if_neg (pad_ne_empty _ _ _ hXleadne), jsTrim_pad _ _ _ hw1 hw2 hXlead hXleadne,
        hCleanLead, hj]
  · intro w1 w2 hw1 hw2
    show interpretWith parse (some (w1 ++ (s ++ "\n```") ++ w2)) = Except.ok j
    simp only [interpretWith]
    rw [if_neg (pad_ne_empty _ _ _ hXtrailne), jsTrim_pad _ _ _ hw1 hw2 hXtrail hXtrailne,
        hCleanTrail, hj]
  · rw [hXfull, hCleanFull]
  · rw [hXfull, hCleanFull, hCleanS]
  · show interpretWith parse (some ("```\n" ++ s ++ "\n```"))
        = Except.error InterpError.malformedResponse
    simp only [interpretWith]
    rw [if_neg (plain_wrap_ne_empty s), jsTrim_plain_wrap, cleanFence_plain_wrap]
    rw [show parse ⟨"```\n".data ++ s.data⟩ = none from parse_bq _]

/-- Witness for claim C1 at the payload of two braces: the fully
wrapped reply with surrounding whitespace interprets to the empty
object. -/
theorem C1_witness :
    interpret (some (" " ++ ("```json\n" ++ "\x7b\x7d" ++ "\n```") ++ "\n")) =
      Except.ok (Json.obj []) :=
  (C1_fence_stripping_amended "\x7b\x7d" (Json.obj []) rfl rfl rfl).2.2.2.2.2.1
    " " "\n" (by decide) (by decide)

/-- Counterexample for claim C1 as stated: the same well-formed payload
wrapped in an untagged three-backtick fence is not unwrapped, so the
Interpreter fails instead of returning the parse of the payload. -/
theorem C1_counterexample :
    interpret (some "```\n\x7b\x7d\n```") = Except.error InterpError.malformedResponse ∧
    parse "\x7b\x7d" = some (Json.obj []) :=
  ⟨rfl, rfl⟩

/-- Claim C2, corrected. The counterexample below shows the claim as
stated is false: the source returns the bare JSON.parse result with no
shape validation, so a valid-JSON reply missing a required field is
returned as a value. Amended claim: the Interpreter performs no shape
validation; every reply whose cleaned text parses as a JSON object is
returned as that object even when the object has no color_palette
member. -/
theorem C2_no_shape_validation (s : String) (fs : List (String × Json))
    (hne : s ≠ "") (hp : parse (cleanFence (jsTrim s)) = some (Json.obj fs))
    (hmiss : "color_palette" ∉ fs.map Prod.fst) :
    interpret (some s) = Except.ok (Json.obj fs) := by
  show interpretWith parse (some s) = Except.ok (Json.obj fs)
  simp only [interpretWith]
  rw [if_neg hne, hp]

/-- Witness for claim C2 at an analysis reply missing color_palette. -/
theorem C2_witness :
    interpret (some "\x7b\"title\":\"t\",\"summary\":\"s\",\"detected_objects\":[]\x7d") =
      Except.ok (Json.obj [("title", Json.str "t"), ("summary", Json.str "s"),
        ("detected_objects", Json.arr [])]) :=
  C2_no_shape_validation _ _ (by decide) rfl (by decide)

/-- Counterexample for claim C2 as stated: a valid-JSON analysis reply
with no color_palette member is returned as a value, not rejected with
MalformedResponseError. -/
theorem C2_counterexample :
    interpret (some "\x7b\"title\":\"t\",\"summary\":\"s\",\"detected_objects\":[]\x7d") =
      Except.ok (Json.obj [("title", Json.str "t"), ("summary", Json.str "s"),
        ("detected_objects", Json.arr [])]) ∧
    "color_palette" ∉ ["title", "summary", "detected_objects"] :=
  ⟨rfl, by decide⟩

/-- Claim C3, confirmed: for an absent or empty raw reply the
interpretation protocol fails with the empty-response error whatever
parser it is given, so the reply is never parsed. -/
theorem C3_empty_reply (p : String → Option Json) :
    interpretWith p none = Except.error InterpError.emptyResponse ∧
    interpretWith p (some "") = Except.error InterpError.emptyResponse :=
  ⟨rfl, rfl⟩

/-- Witness for claim C3 with the actual JSON parser. -/
theorem C3_witness :
    interpret none = Except.error InterpError.emptyResponse ∧
    interpret (some "") = Except.error InterpError.emptyResponse :=
  C3_empty_reply parse

/-- Claim C4: the code never surfaces an encoding failure. On a read
error the executor leaves the promise pending forever, so the model
evaluates to pending, not to an error the caller could surface. -/
theorem C4_read_error_never_settles :
    fileToGenerativePart ⟨[1, 2, 3], "image/png"⟩ ReadOutcome.errored =
      PromiseOutcome.pending := rfl

/-- Claim C5, corrected. The counterexample below shows the claim as
stated is false: the free-text path neither fails on an empty or absent
reply nor trims. Amended claim: the free-text path applies none of the
interpretation steps; it always succeeds and returns the raw reply
verbatim, with an absent reply mapped to the empty string. -/
theorem C5_raw_passthrough (t : String) :
    extractTextFromImage (Except.ok (some t)) = Except.ok ⟨t⟩ ∧
    extractTextFromImage (Except.ok none) = Except.ok ⟨""⟩ :=
  ⟨rfl, rfl⟩

/-- Witness for claim C5 at a reply with surrounding whitespace. -/
theorem C5_witness :
    extractTextFromImage (Except.ok (some " sample ")) = Except.ok ⟨" sample "⟩ :=
  (C5_raw_passthrough " sample ").1

/-- Counterexample for claim C5 as stated: an absent reply yields an
empty success rather than the empty-response failure, and a reply with
surrounding whitespace is returned untrimmed. -/
theorem C5_counterexample :
    extractTextFromImage (Except.ok none) = Except.ok ⟨""⟩ ∧
    extractTextFromImage (Except.ok (some " hello ")) = Except.ok ⟨" hello "⟩ ∧
    jsTrim " hello " = "hello" :=
  ⟨rfl, rfl, rfl⟩

/-- Claim C6, confirmed: when exactly one of the two joined calls
fails, the run of handleAnalyze leaves both results null and surfaces
an error; the succeeding call result is discarded. -/
theorem C6_failfast_join (s : AppModel) (ra : Except String AnalysisResponse)
    (rt : Except String TextExtractionResponse) (himg : s.imageFile ≠ none)
    (h : (∃ e t, ra = Except.error e ∧ rt = Except.ok t) ∨
         (∃ a e, ra = Except.ok a ∧ rt = Except.error e)) :
    (handleAnalyze s ra rt).analysisResult = none ∧
    (handleAnalyze s ra rt).textResult = none ∧
    (handleAnalyze s ra rt).error ≠ none := by
  unfold handleAnalyze handleAnalyzeStart handleAnalyzeSettle
  rw [if_neg himg]
  rcases h with ⟨e, t, rfl, rfl⟩ | ⟨a, e, rfl, rfl⟩ <;>
    simp [joinAll, if_neg himg, jsOrDefault]

/-- Witness for claim C6: analysis fails, extraction succeeds. -/
theorem C6_witness :
    (handleAnalyze ⟨AppState.interactive, some ⟨[1], "image/png"⟩, "p", none, none, none⟩
      (Except.error "boom") (Except.ok ⟨"txt"⟩)).analysisResult = none ∧
    (handleAnalyze ⟨AppState.interactive, some ⟨[1], "image/png"⟩, "p", none, none, none⟩
      (Except.error "boom") (Except.ok ⟨"txt"⟩)).textResult = none ∧
    (handleAnalyze ⟨AppState.interactive, some ⟨[1], "image/png"⟩, "p", none, none, none⟩
      (Except.error "boom") (Except.ok ⟨"txt"⟩)).error ≠ none :=
  C6_failfast_join _ _ _ (fun h => nomatch h) (Or.inl ⟨"boom", ⟨"txt"⟩, rfl, rfl⟩)

/-- Claim C7, confirmed: with an image selected, once the joined call
settles the state is interactive whatever the outcomes, because the
finally clause resets the loading flag unconditionally. -/
theorem C7_loading_cleared (s : AppModel) (ra : Except String AnalysisResponse)
    (rt : Except String TextExtractionResponse) (himg : s.imageFile ≠ none) :
    (handleAnalyze s ra rt).appState = AppState.interactive := by
  unfold handleAnalyze handleAnalyzeSettle
  rw [if_neg himg]

/-- Witness for claim C7 at a successful run. -/
theorem C7_witness :
    (handleAnalyze ⟨AppState.interactive, some ⟨[1], "image/png"⟩, "p", none, none, none⟩
      (Except.ok ⟨"t", "s", [], []⟩) (Except.ok ⟨"txt"⟩)).appState = AppState.interactive :=
  C7_loading_cleared _ _ _ (fun h => nomatch h)

/-- Claim C8, confirmed: the fenced scenario reply normalizes and
parses to the object whose text field holds a real newline. -/
theorem C8_fenced_scenario :
    interpret (some "```json\n\x7b\"text\":\"hello\\nworld\"\x7d\n```") =
      Except.ok (Json.obj [("text", Json.str "hello\nworld")]) := rfl

/-- Claim C9, confirmed: the payload split off the data URL is exactly
the base64 encoding of the bytes, and decoding it recovers the bytes.
The byte bound says the entries are bytes; the comma-free MIME type
matches the token syntax of MIME types, which excludes commas. -/
theorem C9_base64_roundtrip (bytes : List Nat) (mime : String)
    (hb : ∀ b ∈ bytes, b < 256) (hm : ∀ c ∈ mime.data, c ≠ ',') :
    fileToGenerativePart ⟨bytes, mime⟩ ReadOutcome.loaded =
      PromiseOutcome.resolved ⟨⟨encodeB64 bytes⟩, mime⟩ ∧
    decodeB64 (encodeB64 bytes) = some bytes := by
  constructor
  · show PromiseOutcome.resolved
        (InlinePart.mk ⟨(splitCommaCs (dataUrlOf ⟨bytes, mime⟩).data).getD 1 []⟩ mime)
      = PromiseOutcome.resolved (InlinePart.mk ⟨encodeB64 bytes⟩ mime)
    have hsplit : splitCommaCs (dataUrlOf ⟨bytes, mime⟩).data
        = ("data:".data ++ mime.data ++ ";base64".data) :: [encodeB64 bytes] := by
      rw [dataUrl_data]
      rw [splitCommaCs_append _ _ (header_ne_comma mime hm)]
      rw [splitCommaCs_no_comma _ (encodeB64_ne_comma bytes)]
    rw [hsplit]
    rfl
  · exact decodeB64_encodeB64 bytes hb

/-- Witness for claim C9 at a four-byte file. -/
theorem C9_witness :
    fileToGenerativePart ⟨[0, 77, 255, 10], "image/png"⟩ ReadOutcome.loaded =
      PromiseOutcome.resolved ⟨⟨encodeB64 [0, 77, 255, 10]⟩, "image/png"⟩ ∧
    decodeB64 (encodeB64 [0, 77, 255, 10]) = some [0, 77, 255, 10] :=
  C9_base64_roundtrip [0, 77, 255, 10] "image/png" (by decide) (by decide)

/-- Claim C10, confirmed: every reachable state that is loading has an
image selected, and invoking handleAnalyze with no image selected
leaves the state unchanged and issues no outbound call. -/
theorem C10_loading_invariant :
    (∀ es : List AppEvent, (runApp es).appState = AppState.loading →
      (runApp es).imageFile ≠ none) ∧
    (∀ s : AppModel, s.imageFile = none → handleAnalyzeStart s = (s, false)) ∧
    (∀ (s : AppModel) (ra : Except String AnalysisResponse)
      (rt : Except String TextExtractionResponse),
      s.imageFile = none → handleAnalyze s ra rt = s) := by
  refine ⟨?_, ?_, ?_⟩
  · intro es
    exact foldl_keeps_loading_inv es initialModel (fun h => nomatch h)
  · intro s h
    unfold handleAnalyzeStart
    rw [if_pos h]
  · intro s ra rt h
    unfold handleAnalyze
    rw [if_pos h]

/-- Witness for claim C10: a trace reaching the loading state has an
image selected, and the start from the initial state issues no call. -/
theorem C10_witness :
    (runApp [AppEvent.imageSelected ⟨[1], "image/png"⟩, AppEvent.analyzeStart]).imageFile
      ≠ none ∧
    handleAnalyzeStart initialModel = (initialModel, false) :=
  ⟨C10_loading_invariant.1 _ rfl, C10_loading_invariant.2.1 initialModel rfl⟩

end Gemini
